import Mathlib

/-
Verification development for the infinite reference-many list controller:
a shallow embedding of the two hooks (the infinite getMany wrapper and the
reference-many field controller) together with proofs of the behavioural
claims about cursor advancement, record promotion, result shaping, the
disabled-query pending state, error notification, filter reconciliation,
debounced filter commits and sort side effects.

Modelling conventions: JavaScript numbers that act as page cursors are
modelled as Int (they are decremented below 1 by backward paging); record
totals are modelled as Nat counts; optional / possibly-null values are
modelled as Option; plain-object filter values are modelled as association
lists compared structurally (deep structural equality, never reference
identity, which has no counterpart in the embedding).
-/

/-- Page-info block optionally returned by the data provider; when present it
is authoritative for cursor advancement. -/
structure PageInfo where
  hasNextPage : Bool
  hasPreviousPage : Bool
deriving DecidableEq, Repr

/-- One loaded page as produced by the queryFn of useInfiniteGetMany: the
records, the optional reported total, the cursor that fetched it, and the
optional pageInfo block. -/
structure LoadedPage (R : Type) where
  data : List R
  total : Option Nat
  pageParam : Int
  pageInfo : Option PageInfo
deriving DecidableEq, Repr

/-- Embeds getNextPageParam of useInfiniteGetMany: with pageInfo present,
advance iff hasNextPage; otherwise compare the cursor with
ceil((total or 0) / perPage), computed on naturals as (t + perPage - 1) / perPage. -/
def getNextPageParam {R : Type} (perPage : Nat) (p : LoadedPage R) : Option Int :=
  match p.pageInfo with
  | some pi => if pi.hasNextPage then some (p.pageParam + 1) else none
  | none =>
      let totalPages : Nat := (p.total.getD 0 + perPage - 1) / perPage
      if p.pageParam < (totalPages : Int) then some (p.pageParam + 1) else none

/-- Embeds getPreviousPageParam of useInfiniteGetMany: with pageInfo present,
go back iff hasPreviousPage; otherwise go back iff the cursor is not 1. -/
def getPreviousPageParam {R : Type} (p : LoadedPage R) : Option Int :=
  match p.pageInfo with
  | some pi => if pi.hasPreviousPage then some (p.pageParam - 1) else none
  | none => if p.pageParam = 1 then none else some (p.pageParam - 1)

/-- A referenced record: its id (already stringified, as the promotion effect
keys the getOne cache by String(record.id)) and an opaque payload that lets
two records with the same id differ. -/
structure RaRecord where
  id : String
  body : Int
deriving DecidableEq, Repr

/-- The record-by-id (getOne) cache slice for one resource and meta value,
as an association list from stringified record id to cached record. -/
abbrev RecordCache := List (String × RaRecord)

/-- Lookup in the record-by-id cache. -/
def cacheLookup (c : RecordCache) (k : String) : Option RaRecord :=
  (c.find? fun e => e.1 == k).map (fun e => e.2)

/-- Embeds one setQueryData call of the promotion effect, whose updater is
fun oldRecord => oldRecord default-or record: an existing entry is kept,
a missing entry is created with the promoted record. -/
def promoteRecord (c : RecordCache) (r : RaRecord) : RecordCache :=
  match cacheLookup c r.id with
  | some _ => c
  | none => (r.id, r) :: c

/-- The promotion ceiling MAX_DATA_LENGTH_TO_CACHE from useInfiniteGetMany. -/
def MAX_DATA_LENGTH_TO_CACHE : Nat := 100

/-- Embeds the allPagesDataLength reduce of the promotion effect. -/
def allPagesDataLength {R : Type} (pages : List (LoadedPage R)) : Nat :=
  pages.foldl (fun acc page => acc + page.data.length) 0

/-- A fetch error as observed by the onError handler: either a plain string
or an error-like object with an optional message property (none models an
absent message, some of the empty string models a present empty message). -/
inductive ErrVal where
  | str (s : String)
  | obj (message : Option String)
deriving DecidableEq, Repr

/-- The react-query result surface that the two hooks read: the optional
page sequence (the data field), the optional error, and the pending and
fetching flags. -/
structure QueryResult (R : Type) where
  pages : Option (List (LoadedPage R))
  error : Option ErrVal
  isPending : Bool
  isFetching : Bool
deriving DecidableEq, Repr

/-- Embeds the promotion effect of useInfiniteGetMany: it runs only on a
settled state (data present, no error, not fetching); it counts the records
of all cached pages and, only when the count is within the ceiling, walks
every page and every record and writes it into the record-by-id cache with
the keep-existing updater. -/
def promotionEffect (r : QueryResult RaRecord) (c : RecordCache) : RecordCache :=
  match r.pages, r.error, r.isFetching with
  | some pages, none, false =>
      if allPagesDataLength pages ≤ MAX_DATA_LENGTH_TO_CACHE then
        pages.foldl (fun acc page => page.data.foldl promoteRecord acc) c
      else c
  | _, _, _ => c

/-- Embeds unwrappedData of the controller: the reduce concatenating the
data of every page, in page-sequence order. -/
def unwrappedData {R : Type} (r : QueryResult R) : Option (List R) :=
  r.pages.map (fun pages => pages.foldl (fun acc page => acc ++ page.data) [])

/-- Embeds the total computed by useInfiniteGetMany: the total reported by
the first page of the data, absent when there is no data, no first page, or
no reported total on the first page. -/
def igmTotal {R : Type} (r : QueryResult R) : Option Nat :=
  r.pages.bind fun pages => pages.head?.bind fun p => p.total

/-- The claim-relevant fields of the controller result (the remaining fields
are pass-through operations carried unchanged on every branch). -/
structure ControllerResult (R : Type) where
  data : Option (List R)
  error : Option ErrVal
  isLoading : Bool
  isPending : Bool
  total : Option Int
deriving DecidableEq, Repr

/-- Embeds the three-branch return of useInfiniteReferenceManyFieldController:
the error branch, the pending branch, and the success branch with the
flattened data defaulted to the empty list and the total defaulted to -1. -/
def controllerResult {R : Type} (r : QueryResult R) : ControllerResult R :=
  if r.error.isSome then
    { data := none, error := r.error, isLoading := false, isPending := false, total := none }
  else if r.isPending then
    { data := none, error := none, isLoading := true, isPending := true, total := none }
  else
    { data := some ((unwrappedData r).getD []), error := none, isLoading := false,
      isPending := false,
      total := some (match igmTotal r with | some t => (t : Int) | none => -1) }

/-- A field value of the owner record: explicitly null, or a primitive.
An absent field is modelled by Option none at the record level. -/
inductive JVal where
  | jnull
  | jstr (s : String)
  | jnum (n : Int)
  | jbool (b : Bool)
deriving DecidableEq, Repr

/-- Embeds the enabled option of the controller, get(record, source) != null:
false exactly when the identifying field is absent or null. -/
def enabledFlag (record : String → Option JVal) (source : String) : Bool :=
  match record source with
  | none => false
  | some JVal.jnull => false
  | some _ => true

/-- The state react-query reports for a disabled query: no data, no error,
pending, not fetching. -/
def pendingQueryState (R : Type) : QueryResult R :=
  { pages := none, error := none, isPending := true, isFetching := false }

/-- Modelled from the spec: react-query itself is not part of the sources;
per the spec a disabled query issues no fetch and reports the pending state.
Returns the query state the controller observes together with the number of
fetches issued. -/
def runQuery {R : Type} (en : Bool) (fetchOutcome : QueryResult R) : QueryResult R × Nat :=
  if en then (fetchOutcome, 1) else (pendingQueryState R, 0)

/-- Embeds the notification text selection of the onError handler: a plain
string error is used directly; otherwise the message property is used when
it is truthy (present and non-empty), else the generic translated label. -/
def notificationText (e : ErrVal) : String :=
  match e with
  | ErrVal.str s => s
  | ErrVal.obj msg =>
      match msg with
      | some m => if m = "" then "ra.notification.http_error" else m
      | none => "ra.notification.http_error"

/-- Embeds the messageArgs detail of the onError handler: the string error
itself, or a truthy message property, else absent. -/
def messageDetail (e : ErrVal) : Option String :=
  match e with
  | ErrVal.str s => some s
  | ErrVal.obj msg =>
      match msg with
      | some m => if m = "" then none else some m
      | none => none

/-- One emitted notification: text, type, and the messageArgs detail. -/
structure Notification where
  text : String
  ntype : String
  detail : Option String
deriving DecidableEq, Repr

/-- The dependency array of the onError effect, minus the stable callback
reference: the current error and the fetching flag of one render. -/
structure RenderState where
  error : Option ErrVal
  isFetching : Bool
deriving DecidableEq, Repr

/-- Embeds one render of the onError effect: the effect re-runs only when
its dependencies changed since the previous render, returns early while the
error is absent or a fetch is in flight, and otherwise notifies once with
type error. -/
def notifyAt (prev : Option RenderState) (curr : RenderState) : List Notification :=
  if prev = some curr then []
  else
    match curr.error, curr.isFetching with
    | some e, false => [{ text := notificationText e, ntype := "error", detail := messageDetail e }]
    | _, _ => []

/-- Notifications emitted along a sequence of renders, threading the
previously observed dependency state. -/
def notifyTraceAux (prev : Option RenderState) : List RenderState → List Notification
  | [] => []
  | s :: rest => notifyAt prev s ++ notifyTraceAux (some s) rest

/-- Notifications emitted along a full render sequence started fresh. -/
def notifyTrace (trace : List RenderState) : List Notification :=
  notifyTraceAux none trace

/-- A filter field value: string, number, boolean, null, or a (flat)
container. Containers carry opaque string elements; only their emptiness
matters to sanitation. -/
inductive FVal where
  | fstr (s : String)
  | fnum (n : Int)
  | fbool (b : Bool)
  | fnull
  | farr (elems : List String)
  | fobj (fields : List (String × String))
deriving DecidableEq, Repr

/-- Empty-entry test from the spec wording: empty string, empty container,
or null/undefined (null models both, since an undefined entry of an
association list is simply absent). -/
def isEmptyVal : FVal → Bool
  | FVal.fstr s => s == ""
  | FVal.fnull => true
  | FVal.farr es => es.isEmpty
  | FVal.fobj fs => fs.isEmpty
  | _ => false

/-- Modelled from the spec: removeEmpty is a react-admin utility that is not
part of the sources; per the spec it strips entries whose value is an empty
string, an empty container, or null/undefined. -/
def removeEmpty (fields : List (String × FVal)) : List (String × FVal) :=
  fields.filter fun kv => !isEmptyVal kv.2

/-- A sort payload: field name and order. -/
structure SortPayload where
  field : String
  order : String
deriving DecidableEq, Repr

/-- The controller state touched by the claims: page, perPage, sort, live
filter values, displayed filters, and the last observed default filter
(the filterRef of the reconciliation effect). -/
structure CtrlState where
  page : Int
  perPage : Nat
  sort : SortPayload
  filterValues : List (String × FVal)
  displayedFilters : List (String × Bool)
  filterRef : List (String × FVal)
deriving DecidableEq, Repr

/-- Embeds setSort of the controller: setSortState(sort) then setPage(1).
The sort update itself is modelled from the spec (useSortState is a
react-admin hook outside the sources; per the spec setSort updates the sort
and does not touch the filters). -/
def setSort (payload : SortPayload) (st : CtrlState) : CtrlState :=
  { st with sort := payload, page := 1 }

/-- Embeds the synchronous branch of setFilters (and the body of the
debounced commit): sanitize the values, replace the displayed filters,
reset the page to 1. -/
def setFiltersImmediate (values : List (String × FVal))
    (displayed : List (String × Bool)) (st : CtrlState) : CtrlState :=
  { st with
      filterValues := removeEmpty values
      displayedFilters := displayed
      page := 1 }

/-- Embeds the filter reconciliation effect (it has no dependency array, so
it runs on every render): when the incoming default filter differs from the
last observed one by deep structural equality, record it and reset the live
filter values to it; otherwise leave the state untouched. -/
def reconcileFilter (incoming : List (String × FVal)) (st : CtrlState) : CtrlState :=
  if incoming = st.filterRef then st
  else { st with filterRef := incoming, filterValues := incoming }

/-- Arguments of one setFilters call: the filter values and the displayed
filters. -/
abbrev DebArgs := (List (String × FVal)) × (List (String × Bool))

/-- Events seen by the debouncer: a call with arguments, or the expiry of
the debounce window. -/
inductive DebEvent where
  | call (a : DebArgs)
  | tick
deriving DecidableEq, Repr

/-- Debouncer state: the pending (latest) arguments, and the list of commits
fired so far. -/
structure DebState where
  pending : Option DebArgs
  fired : List DebArgs
deriving DecidableEq, Repr

/-- Modelled from the spec: lodash debounce is not part of the sources; per
the spec it is a trailing-edge coalescer: each call cancels any pending
timer and schedules the latest arguments; on expiry it fires exactly once
with those arguments. -/
def debStep (st : DebState) : DebEvent → DebState
  | DebEvent.call a => { st with pending := some a }
  | DebEvent.tick =>
      match st.pending with
      | some a => { pending := none, fired := st.fired ++ [a] }
      | none => st

/-- Run the debouncer from the idle state over a sequence of events. -/
def debRun (evs : List DebEvent) : DebState :=
  evs.foldl debStep { pending := none, fired := [] }

/-- Apply the fired debounced commits to the controller state; each commit
is the synchronous setFilters body. -/
def applyCommits (st : CtrlState) (commits : List DebArgs) : CtrlState :=
  commits.foldl (fun s a => setFiltersImmediate a.1 a.2 s) st

/-- Concrete page for witnesses: cursor 3 of a 95-record collection, no
pageInfo (the spec example at perPage 25). -/
def samplePage3 : LoadedPage RaRecord :=
  { data := [], total := some 95, pageParam := 3, pageInfo := none }

/-- Concrete page for witnesses: cursor 4 of a 95-record collection, no
pageInfo (the spec example at perPage 25). -/
def samplePage4 : LoadedPage RaRecord :=
  { data := [], total := some 95, pageParam := 4, pageInfo := none }

/-- Concrete page for witnesses: negative cursor, no pageInfo, no total. -/
def samplePageNeg : LoadedPage RaRecord :=
  { data := [], total := none, pageParam := -1, pageInfo := none }

/-- Concrete page for witnesses: cursor 5, no pageInfo, no total. -/
def samplePage5 : LoadedPage RaRecord :=
  { data := [], total := none, pageParam := 5, pageInfo := none }

/-- Concrete record for witnesses. -/
def sampleRecord1 : RaRecord := { id := "1", body := 1 }

/-- Concrete record for witnesses. -/
def sampleRecord2 : RaRecord := { id := "2", body := 2 }

/-- Concrete pre-existing cache entry for witnesses: same id as
sampleRecord1 but a different body, to observe first-writer-wins. -/
def sampleOldRecord : RaRecord := { id := "1", body := 99 }

/-- Concrete record cache for witnesses, already holding id 1. -/
def sampleCache : RecordCache := [("1", sampleOldRecord)]

/-- Concrete loaded page for the promotion witnesses. -/
def samplePromoPage : LoadedPage RaRecord :=
  { data := [sampleRecord1, sampleRecord2], total := some 2, pageParam := 1, pageInfo := none }

/-- Concrete settled query result for the promotion witnesses. -/
def samplePromoResult : QueryResult RaRecord :=
  { pages := some [samplePromoPage], error := none, isPending := false, isFetching := false }

/-- Concrete error value for witnesses, with message boom. -/
def sampleBoomError : ErrVal := ErrVal.obj (some "boom")

/-- Concrete settled-error render state for witnesses. -/
def sampleErrorRender : RenderState := { error := some sampleBoomError, isFetching := false }

/-- The notification expected for sampleBoomError. -/
def sampleBoomNotification : Notification :=
  { text := "boom", ntype := "error", detail := some "boom" }

/-- Concrete sort payload for witnesses. -/
def sampleSort : SortPayload := { field := "id", order := "DESC" }

/-- Concrete default filter for witnesses. -/
def sampleDefaultFilter : List (String × FVal) := [("status", FVal.fstr "active")]

/-- Concrete controller state for witnesses: page 7 with a user-edited live
filter and an empty last-observed default. -/
def sampleEditedState : CtrlState :=
  { page := 7, perPage := 25, sort := sampleSort,
    filterValues := [("q", FVal.fstr "user")],
    displayedFilters := [("q", true)], filterRef := [] }

/-- Concrete setFilters arguments for witnesses (the spec example: values
q = x with q displayed). -/
def sampleFilterArgs : DebArgs := ([("q", FVal.fstr "x")], [("q", true)])

/-- Bridging fact: the Nat computation (t + p - 1) / p used by
getNextPageParam equals the mathematical ceiling of t / p when p is
positive. -/
theorem natCeilDiv_cast (t p : Nat) (hp : 0 < p) :
    (((t + p - 1) / p : Nat) : Int) = ⌈(t : ℚ) / (p : ℚ)⌉ := by
  have hrw : (t + p - 1) / p = t ⌈/⌉ p := (Nat.ceilDiv_eq_add_pred_div t p).symm
  rw [hrw]
  have hp' : (0 : ℚ) < (p : ℚ) := by exact_mod_cast hp
  have h1 : t ≤ p * (t ⌈/⌉ p) := by
    simpa [smul_eq_mul] using le_smul_ceilDiv (b := t) hp
  symm
  rw [Int.ceil_eq_iff]
  constructor
  · rcases Nat.eq_zero_or_pos (t ⌈/⌉ p) with h0 | hpos
    · rw [h0]
      have hnn : (0 : ℚ) ≤ (t : ℚ) / p := div_nonneg (by positivity) (le_of_lt hp')
      push_cast
      linarith
    · obtain ⟨m, hm⟩ := Nat.exists_eq_succ_of_ne_zero (Nat.pos_iff_ne_zero.mp hpos)
      have hlt : p * m < t := by
        by_contra hle
        push_neg at hle
        have hc : t ⌈/⌉ p ≤ m := (ceilDiv_le_iff_le_mul hp).mpr hle
        omega
      rw [hm]
      have hq : ((m : ℚ)) * p < (t : ℚ) := by
        have : ((p * m : ℕ) : ℚ) < ((t : ℕ) : ℚ) := by exact_mod_cast hlt
        push_cast at this
        linarith
      have := (lt_div_iff₀ hp').mpr hq
      push_cast
      linarith
  · rw [div_le_iff₀ hp']
    have : ((t : ℕ) : ℚ) ≤ ((p * (t ⌈/⌉ p) : ℕ) : ℚ) := by exact_mod_cast h1
    push_cast at this
    push_cast
    linarith

/-- C1: Cursor advancement follows the dual policy exactly: with pageInfo
present, a next cursor exists iff hasNextPage (value c+1) and a previous
cursor exists iff hasPreviousPage (value c-1); with pageInfo absent and a
reported total, a next cursor exists iff c < ceil(total / perPage)
(value c+1), and a previous cursor exists iff c is not 1 (value c-1). -/
theorem c1_cursor_advancement (perPage : Nat) (hp : 0 < perPage) (p : LoadedPage RaRecord) :
    (∀ pi, p.pageInfo = some pi →
        getNextPageParam perPage p = (if pi.hasNextPage then some (p.pageParam + 1) else none)
      ∧ getPreviousPageParam p = (if pi.hasPreviousPage then some (p.pageParam - 1) else none))
  ∧ (p.pageInfo = none →
      (∀ t, p.total = some t →
          (((getNextPageParam perPage p).isSome ↔ p.pageParam < ⌈(t : ℚ) / (perPage : ℚ)⌉)
        ∧ (p.pageParam < ⌈(t : ℚ) / (perPage : ℚ)⌉ →
              getNextPageParam perPage p = some (p.pageParam + 1))))
    ∧ ((getPreviousPageParam p).isSome ↔ p.pageParam ≠ 1)
    ∧ (p.pageParam ≠ 1 → getPreviousPageParam p = some (p.pageParam - 1))) := by
  refine ⟨fun pi hpi => ⟨by simp [getNextPageParam, hpi], by simp [getPreviousPageParam, hpi]⟩,
    fun hnone => ⟨fun t ht => ?_, ?_, fun h1 => by simp [getPreviousPageParam, hnone, h1]⟩⟩
  · have hkey : (((t + perPage - 1) / perPage : Nat) : Int) = ⌈(t : ℚ) / (perPage : ℚ)⌉ :=
      natCeilDiv_cast t perPage hp
    have hform : getNextPageParam perPage p =
        if p.pageParam < (((t + perPage - 1) / perPage : Nat) : Int)
        then some (p.pageParam + 1) else none := by
      simp only [getNextPageParam, hnone, ht, Option.getD_some]
    rw [← hkey]
    refine ⟨?_, fun hlt => by rw [hform, if_pos hlt]⟩
    rw [hform]
    by_cases hlt : p.pageParam < (((t + perPage - 1) / perPage : Nat) : Int)
    · rw [if_pos hlt]
      simpa using hlt
    · rw [if_neg hlt]
      simpa using hlt
  · by_cases h1 : p.pageParam = 1 <;> simp [getPreviousPageParam, hnone, h1]

/-- Witness for c1_cursor_advancement, at the spec example total 95,
perPage 25: at page 3 the next cursor is 4, at page 4 there is none, and at
page 4 the previous cursor is 3. -/
theorem c1_witness :
    getNextPageParam 25 samplePage3 = some 4
  ∧ getNextPageParam 25 samplePage4 = none
  ∧ getPreviousPageParam samplePage4 = some 3 := by
  have hceil : ⌈((95 : ℕ) : ℚ) / ((25 : ℕ) : ℚ)⌉ = 4 := by
    push_cast
    rw [show ((95 : ℚ) / (25 : ℚ)) = (19 / 5 : ℚ) by norm_num]
    norm_num [Int.ceil_eq_iff]
  have h3 := (c1_cursor_advancement 25 (by decide) samplePage3).2 rfl
  have h4 := (c1_cursor_advancement 25 (by decide) samplePage4).2 rfl
  refine ⟨(h3.1 95 rfl).2 (by rw [hceil]; decide), ?_, h4.2.2 (by decide)⟩
  have hiff := (h4.1 95 rfl).1
  rw [hceil] at hiff
  exact Option.not_isSome_iff_eq_none.mp (by rw [hiff]; decide)

/-- C10 (amended): with neither pageInfo nor a reported total, the missing
total is treated as 0, so totalPages is 0 and no next cursor exists whenever
the current cursor is nonnegative (in particular at every genuine page
number); a previous cursor exists iff the cursor is not 1, with value c-1. -/
theorem c10_missing_total (perPage : Nat) (p : LoadedPage RaRecord)
    (hpi : p.pageInfo = none) (ht : p.total = none) :
    (0 ≤ p.pageParam → getNextPageParam perPage p = none)
  ∧ ((getPreviousPageParam p).isSome ↔ p.pageParam ≠ 1)
  ∧ (p.pageParam ≠ 1 → getPreviousPageParam p = some (p.pageParam - 1)) := by
  refine ⟨fun hge => ?_, ?_, fun h1 => by simp [getPreviousPageParam, hpi, h1]⟩
  · have hz : ((0 + perPage - 1) / perPage : Nat) = 0 := by
      rcases Nat.eq_zero_or_pos perPage with h | h
      · subst h
        rfl
      · exact Nat.div_eq_of_lt (by omega)
    have hform : getNextPageParam perPage p =
        if p.pageParam < (((0 + perPage - 1) / perPage : Nat) : Int)
        then some (p.pageParam + 1) else none := by
      simp only [getNextPageParam, hpi, ht, Option.getD_none]
    rw [hform, hz]
    rw [if_neg (by omega)]
  · by_cases h1 : p.pageParam = 1 <;> simp [getPreviousPageParam, hpi, h1]

/-- C10 counterexample: at the concrete cursor -1 with no pageInfo and no
reported total, getNextPageParam does produce a next cursor (value 0), so
the claim that no next cursor exists regardless of the cursor value is
false as stated. -/
theorem c10_counterexample : getNextPageParam 25 samplePageNeg = some 0 := by
  decide

/-- Witness for c10_missing_total at cursor 5, perPage 25, no total: no next
cursor, and the previous cursor is 4. -/
theorem c10_witness :
    getNextPageParam 25 samplePage5 = none ∧ getPreviousPageParam samplePage5 = some 4 := by
  have h := c10_missing_total 25 samplePage5 rfl rfl
  exact ⟨h.1 (by decide), h.2.2 (by decide)⟩

/-- A promotion write never changes an existing entry: promoteRecord keeps
every binding already present in the cache. -/
theorem cacheLookup_promote_preserved {c : RecordCache} {r : RaRecord} {k : String}
    {v : RaRecord} (h : cacheLookup c k = some v) :
    cacheLookup (promoteRecord c r) k = some v := by
  unfold promoteRecord
  cases hl : cacheLookup c r.id with
  | some w => exact h
  | none =>
      by_cases hk : r.id = k
      · subst hk
        rw [hl] at h
        exact absurd h (by simp)
      · simp only [cacheLookup] at h ⊢
        rw [List.find?_cons]
        rw [show ((((r.id, r) : String × RaRecord).1 == k)) = false from by simp [hk]]
        exact h

/-- After promoting a record, the cache has an entry under its id. -/
theorem cacheLookup_promote_self (c : RecordCache) (r : RaRecord) :
    (cacheLookup (promoteRecord c r) r.id).isSome = true := by
  unfold promoteRecord
  cases hl : cacheLookup c r.id with
  | some w => simp [hl]
  | none =>
      simp only [cacheLookup]
      rw [List.find?_cons]
      rw [show ((((r.id, r) : String × RaRecord).1 == r.id)) = true from by simp]
      rfl

/-- Folding promoteRecord over a record list keeps every existing binding. -/
theorem cacheLookup_promoteList_preserved (ds : List RaRecord) :
    ∀ (c : RecordCache) (k : String) (v : RaRecord), cacheLookup c k = some v →
      cacheLookup (ds.foldl promoteRecord c) k = some v := by
  induction ds with
  | nil => exact fun _ _ _ h => h
  | cons d tl ih => exact fun c k v h => ih _ _ _ (cacheLookup_promote_preserved h)

/-- Folding promoteRecord over a record list keeps every occupied key occupied. -/
theorem cacheLookup_promoteList_isSome (ds : List RaRecord) :
    ∀ (c : RecordCache) (k : String), (cacheLookup c k).isSome = true →
      (cacheLookup (ds.foldl promoteRecord c) k).isSome = true := by
  induction ds with
  | nil => exact fun _ _ h => h
  | cons d tl ih =>
      intro c k h
      apply ih
      obtain ⟨v, hv⟩ := Option.isSome_iff_exists.mp h
      rw [cacheLookup_promote_preserved hv]
      rfl

/-- After folding promoteRecord over a record list, every listed record has
an entry under its id. -/
theorem cacheLookup_promoteList_mem (ds : List RaRecord) :
    ∀ (c : RecordCache) (d : RaRecord), d ∈ ds →
      (cacheLookup (ds.foldl promoteRecord c) d.id).isSome = true := by
  induction ds with
  | nil => intro _ _ h; cases h
  | cons a tl ih =>
      intro c d hd
      rcases List.mem_cons.mp hd with rfl | htl
      · exact cacheLookup_promoteList_isSome tl _ _ (cacheLookup_promote_self c d)
      · exact ih _ _ htl

/-- The page-level promotion fold keeps every existing binding. -/
theorem cacheLookup_promotePages_preserved (pages : List (LoadedPage RaRecord)) :
    ∀ (c : RecordCache) (k : String) (v : RaRecord), cacheLookup c k = some v →
      cacheLookup
        (pages.foldl (fun acc page => page.data.foldl promoteRecord acc) c) k = some v := by
  induction pages with
  | nil => exact fun _ _ _ h => h
  | cons pg tl ih =>
      exact fun c k v h => ih _ _ _ (cacheLookup_promoteList_preserved pg.data _ _ _ h)

/-- The page-level promotion fold keeps every occupied key occupied. -/
theorem cacheLookup_promotePages_isSome (pages : List (LoadedPage RaRecord)) :
    ∀ (c : RecordCache) (k : String), (cacheLookup c k).isSome = true →
      (cacheLookup
        (pages.foldl (fun acc page => page.data.foldl promoteRecord acc) c) k).isSome = true := by
  induction pages with
  | nil => exact fun _ _ h => h
  | cons pg tl ih =>
      exact fun c k h => ih _ _ (cacheLookup_promoteList_isSome pg.data _ _ h)

/-- After the page-level promotion fold, every record of every page has an
entry under its id. -/
theorem cacheLookup_promotePages_mem (pages : List (LoadedPage RaRecord)) :
    ∀ (c : RecordCache) (pg : LoadedPage RaRecord), pg ∈ pages → ∀ d ∈ pg.data,
      (cacheLookup
        (pages.foldl (fun acc page => page.data.foldl promoteRecord acc) c) d.id).isSome
        = true := by
  induction pages with
  | nil => intro _ _ h; cases h
  | cons a tl ih =>
      intro c pg hpg d hd
      rcases List.mem_cons.mp hpg with rfl | htl
      · exact cacheLookup_promotePages_isSome tl _ _ (cacheLookup_promoteList_mem pg.data _ _ hd)
      · exact ih _ _ htl d hd

/-- The reduce used by allPagesDataLength computes the sum of the page record
counts, for any accumulator. -/
theorem foldl_add_length {R : Type} (pages : List (LoadedPage R)) :
    ∀ acc : Nat, pages.foldl (fun a page => a + page.data.length) acc
      = acc + (pages.map fun page => page.data.length).sum := by
  induction pages with
  | nil => intro acc; simp
  | cons a tl ih =>
      intro acc
      simp only [List.foldl_cons, List.map_cons, List.sum_cons, ih]
      omega

/-- C2: On a settled non-error, non-fetching query state, if the record
count across all cached pages is at most 100, every record of every page
gets an entry in the record-by-id cache and no existing entry is replaced
(first-writer-wins); if the count exceeds 100, the cache is left untouched. -/
theorem c2_record_promotion (r : QueryResult RaRecord) (c : RecordCache)
    (pages : List (LoadedPage RaRecord)) (hd : r.pages = some pages)
    (he : r.error = none) (hf : r.isFetching = false) :
    ((pages.map fun page => page.data.length).sum ≤ 100 →
        (∀ pg ∈ pages, ∀ rec ∈ pg.data,
            (cacheLookup (promotionEffect r c) rec.id).isSome = true)
      ∧ (∀ k v, cacheLookup c k = some v → cacheLookup (promotionEffect r c) k = some v))
  ∧ (100 < (pages.map fun page => page.data.length).sum → promotionEffect r c = c) := by
  have hred : promotionEffect r c =
      if allPagesDataLength pages ≤ MAX_DATA_LENGTH_TO_CACHE then
        pages.foldl (fun acc page => page.data.foldl promoteRecord acc) c
      else c := by
    unfold promotionEffect
    rw [hd, he, hf]
  have hcount : allPagesDataLength pages = (pages.map fun page => page.data.length).sum := by
    have h0 := foldl_add_length pages 0
    simpa [allPagesDataLength] using h0
  constructor
  · intro hle
    have hif : promotionEffect r c
        = pages.foldl (fun acc page => page.data.foldl promoteRecord acc) c := by
      rw [hred, if_pos]
      rw [hcount]
      exact hle
    rw [hif]
    exact ⟨fun pg hpg rec hrec => cacheLookup_promotePages_mem pages c pg hpg rec hrec,
      fun k v hv => cacheLookup_promotePages_preserved pages c k v hv⟩
  · intro hgt
    rw [hred, if_neg]
    rw [hcount]
    simp only [MAX_DATA_LENGTH_TO_CACHE]
    omega

/-- Witness for c2_record_promotion: promoting a settled two-record page
(count 2, within the ceiling) creates an entry for the new id 2 and leaves
the pre-existing entry for id 1 untouched. -/
theorem c2_witness :
    (cacheLookup (promotionEffect samplePromoResult sampleCache) "2").isSome = true
  ∧ cacheLookup (promotionEffect samplePromoResult sampleCache) "1" = some sampleOldRecord := by
  have h := (c2_record_promotion samplePromoResult sampleCache [samplePromoPage]
    rfl rfl rfl).1 (by decide)
  exact ⟨h.1 samplePromoPage (by decide) sampleRecord2 (by decide),
    h.2 "1" sampleOldRecord (by decide)⟩

/-- The reduce used by unwrappedData concatenates the page data lists in
page-sequence order, for any accumulator. -/
theorem foldl_append_data {R : Type} (pages : List (LoadedPage R)) :
    ∀ acc : List R, pages.foldl (fun a page => a ++ page.data) acc
      = acc ++ (pages.map fun page => page.data).flatten := by
  induction pages with
  | nil => intro acc; simp
  | cons a tl ih => intro acc; simp [ih]

/-- C3: On success the controller result has data equal to the concatenation,
in page-sequence order, of every loaded page's records; total equal to the
first page's reported total, and the sentinel -1 when no page reported a
total; and isPending false. -/
theorem c3_success_shape (r : QueryResult RaRecord) (pages : List (LoadedPage RaRecord))
    (hd : r.pages = some pages) (he : r.error = none) (hp : r.isPending = false) :
    (controllerResult r).data = some (pages.map fun page => page.data).flatten
  ∧ (controllerResult r).isPending = false
  ∧ (∀ p0 t, pages.head? = some p0 → p0.total = some t →
        (controllerResult r).total = some (t : Int))
  ∧ ((∀ pg ∈ pages, pg.total = none) → (controllerResult r).total = some (-1)) := by
  have hcr : controllerResult r =
      { data := some ((unwrappedData r).getD []), error := none, isLoading := false,
        isPending := false,
        total := some (match igmTotal r with | some t => (t : Int) | none => -1) } := by
    unfold controllerResult
    rw [he, hp]
    simp
  refine ⟨?_, by simp [hcr], ?_, ?_⟩
  · rw [hcr]
    simp [unwrappedData, hd, foldl_append_data]
  · intro p0 t h0 ht
    rw [hcr]
    simp [igmTotal, hd, h0, ht]
  · intro hnone
    rw [hcr]
    cases pages with
    | nil => simp [igmTotal, hd]
    | cons p0 tl =>
        have h0 : p0.total = none := hnone p0 (List.mem_cons_self p0 tl)
        simp [igmTotal, hd, h0]

/-- Witness for c3_success_shape at the concrete settled two-record result:
flattened data, total from the first page, pending false. -/
theorem c3_witness :
    (controllerResult samplePromoResult).data = some [sampleRecord1, sampleRecord2]
  ∧ (controllerResult samplePromoResult).isPending = false
  ∧ (controllerResult samplePromoResult).total = some 2 := by
  have h := c3_success_shape samplePromoResult [samplePromoPage] rfl rfl rfl
  exact ⟨h.1.trans (by decide), h.2.1, (h.2.2.1 samplePromoPage 2 rfl rfl).trans (by decide)⟩

/-- C4: when the owner record's identifying field is absent or null the
query is disabled: no fetch is issued, and the controller reports the
pending state (data undefined, isPending true, error null), whatever state
an actual fetch would have produced. -/
theorem c4_disabled_pending (record : String → Option JVal) (source : String)
    (fetchOutcome : QueryResult RaRecord)
    (h : record source = none ∨ record source = some JVal.jnull) :
    (runQuery (enabledFlag record source) fetchOutcome).2 = 0
  ∧ controllerResult (runQuery (enabledFlag record source) fetchOutcome).1
      = { data := none, error := none, isLoading := true, isPending := true, total := none } := by
  have hen : enabledFlag record source = false := by
    rcases h with h | h <;> simp [enabledFlag, h]
  rw [hen]
  exact ⟨rfl, rfl⟩

/-- Witness for c4_disabled_pending: an owner record whose every field is
null yields zero fetches and the pending controller state. -/
theorem c4_witness :
    (runQuery (enabledFlag (fun _ => some JVal.jnull) "id") samplePromoResult).2 = 0
  ∧ controllerResult (runQuery (enabledFlag (fun _ => some JVal.jnull) "id") samplePromoResult).1
      = { data := none, error := none, isLoading := true, isPending := true, total := none } :=
  c4_disabled_pending (fun _ => some JVal.jnull) "id" samplePromoResult (Or.inr rfl)

/-- A persisting dependency state re-runs no effect: the notification list
of a constant continuation of a render trace is empty. -/
theorem notifyTraceAux_replicate (s : RenderState) :
    ∀ n, notifyTraceAux (some s) (List.replicate n s) = [] := by
  intro n
  induction n with
  | zero => rfl
  | succ k ih => simp [List.replicate_succ, notifyTraceAux, notifyAt, ih]

/-- C5 counterexample: an error object whose message property is present but
equal to the empty string yields the generic translated label instead of the
message, so the claim that the message property is used whenever present is
false at this input. -/
theorem c5_counterexample :
    notificationText (ErrVal.obj (some "")) = "ra.notification.http_error"
  ∧ notificationText (ErrVal.obj (some "")) ≠ "" := by
  exact ⟨rfl, by decide⟩

/-- C5 (amended): the notification text is the error itself for a plain
string error; otherwise the message property when present and non-empty;
otherwise (message absent or equal to the empty string) the generic
translated HTTP-error label. Notifications fire exactly once per distinct
error transition with type error: a settled-error render whose dependencies
changed emits exactly one notification with that text; a render whose
dependencies did not change emits nothing; a render while fetching emits
nothing; and a settled error persisting across consecutive renders emits
exactly one notification in total. -/
theorem c5_error_notification :
    (∀ s, notificationText (ErrVal.str s) = s)
  ∧ (∀ m, m ≠ "" → notificationText (ErrVal.obj (some m)) = m)
  ∧ notificationText (ErrVal.obj none) = "ra.notification.http_error"
  ∧ (∀ prev curr e, curr.error = some e → curr.isFetching = false → prev ≠ some curr →
      notifyAt prev curr
        = [{ text := notificationText e, ntype := "error", detail := messageDetail e }])
  ∧ (∀ prev curr, prev = some curr → notifyAt prev curr = [])
  ∧ (∀ prev curr, curr.isFetching = true → notifyAt prev curr = [])
  ∧ (∀ e n, notifyTrace (List.replicate (n + 1) { error := some e, isFetching := false })
      = [{ text := notificationText e, ntype := "error", detail := messageDetail e }]) := by
  refine ⟨fun s => rfl, fun m hm => by simp [notificationText, hm], rfl, ?_, ?_, ?_, ?_⟩
  · intro prev curr e he hf hne
    unfold notifyAt
    rw [if_neg hne, he, hf]
  · intro prev curr h
    simp [notifyAt, h]
  · intro prev curr hf
    unfold notifyAt
    by_cases hp : prev = some curr
    · rw [if_pos hp]
    · rw [if_neg hp, hf]
      cases curr.error <;> rfl
  · intro e n
    simp [notifyTrace, List.replicate_succ, notifyTraceAux, notifyTraceAux_replicate, notifyAt]

/-- Witness for c5_error_notification: an error with message boom notifies
with text boom, and three consecutive renders of the same settled error
emit exactly one notification. -/
theorem c5_witness :
    notificationText sampleBoomError = "boom"
  ∧ notifyTrace (List.replicate 3 sampleErrorRender) = [sampleBoomNotification] := by
  have h := c5_error_notification
  refine ⟨h.2.1 "boom" (by decide), ?_⟩
  have ht := h.2.2.2.2.2.2 sampleBoomError 2
  exact ht.trans (by decide)

/-- C6: on any render where the caller-supplied default filter differs by
deep structural comparison from the previously observed default, the live
filter values are reset to the new default, whatever user-edited value they
currently hold (this is what overrides debounced or in-flight edits), and
the observed default is updated; when it does not differ, the state is left
untouched. -/
theorem c6_filter_reconciliation (incoming : List (String × FVal)) (st : CtrlState) :
    (incoming ≠ st.filterRef →
        (reconcileFilter incoming st).filterValues = incoming
      ∧ (reconcileFilter incoming st).filterRef = incoming
      ∧ (reconcileFilter incoming st).displayedFilters = st.displayedFilters
      ∧ (reconcileFilter incoming st).page = st.page)
  ∧ (incoming = st.filterRef → reconcileFilter incoming st = st) := by
  constructor
  · intro hne
    simp [reconcileFilter, hne]
  · intro heq
    simp [reconcileFilter, heq]

/-- Witness for c6_filter_reconciliation: changing the default from the
empty filter to status active overwrites the user-edited live filter. -/
theorem c6_witness :
    (reconcileFilter sampleDefaultFilter sampleEditedState).filterValues = sampleDefaultFilter :=
  ((c6_filter_reconciliation sampleDefaultFilter sampleEditedState).1 (by decide)).1

/-- C8: a non-debounced setFilters call commits synchronously: the committed
filter values are exactly the given entries minus the empty ones (empty
string, empty container, null/undefined), the displayed-filter set is
replaced by the given one, and the page is reset to 1. -/
theorem c8_set_filters_sync (values : List (String × FVal))
    (displayed : List (String × Bool)) (st : CtrlState) :
    (∀ kv, kv ∈ (setFiltersImmediate values displayed st).filterValues
        ↔ kv ∈ values ∧ isEmptyVal kv.2 = false)
  ∧ (setFiltersImmediate values displayed st).displayedFilters = displayed
  ∧ (setFiltersImmediate values displayed st).page = 1 := by
  refine ⟨fun kv => ?_, rfl, rfl⟩
  simp [setFiltersImmediate, removeEmpty, List.mem_filter]

/-- C9: setSort sets the page to 1 and updates the sort, leaving the
filter values and the displayed filters unchanged. -/
theorem c9_set_sort (payload : SortPayload) (st : CtrlState) :
    (setSort payload st).page = 1
  ∧ (setSort payload st).sort = payload
  ∧ (setSort payload st).filterValues = st.filterValues
  ∧ (setSort payload st).displayedFilters = st.displayedFilters :=
  ⟨rfl, rfl, rfl, rfl⟩

/-- Calls alone never fire the debouncer; they only replace the pending
arguments with the latest ones. -/
theorem debStep_calls (s : DebState) (as : List DebArgs) :
    (as.map DebEvent.call).foldl debStep s
      = { pending := (match as.getLast? with | some a => some a | none => s.pending),
          fired := s.fired } := by
  induction as generalizing s with
  | nil => simp
  | cons a tl ih =>
      simp only [List.map_cons, List.foldl_cons, debStep]
      rw [ih]
      cases tl with
      | nil => rfl
      | cons b tl2 =>
          rw [List.getLast?_cons_cons, List.getLast?_eq_getLast (b :: tl2) (by simp)]

/-- C7: any nonempty sequence of debounced setFilters calls inside one
debounce window produces exactly one commit on the trailing edge, carrying
the last call's arguments: the committed state has the sanitized values and
displayed filters of the last call, and exactly one page reset to 1. -/
theorem c7_debounced_commit (as : List DebArgs) (h : as ≠ []) (st : CtrlState) :
    (debRun ((as.map DebEvent.call) ++ [DebEvent.tick])).fired = [as.getLast h]
  ∧ (debRun ((as.map DebEvent.call) ++ [DebEvent.tick])).fired.length = 1
  ∧ applyCommits st (debRun ((as.map DebEvent.call) ++ [DebEvent.tick])).fired
      = setFiltersImmediate (as.getLast h).1 (as.getLast h).2 st
  ∧ (applyCommits st (debRun ((as.map DebEvent.call) ++ [DebEvent.tick])).fired).page = 1 := by
  have hrun : debRun ((as.map DebEvent.call) ++ [DebEvent.tick])
      = { pending := none, fired := [as.getLast h] } := by
    unfold debRun
    rw [List.foldl_append, debStep_calls, List.getLast?_eq_getLast as h]
    rfl
  refine ⟨by rw [hrun], by rw [hrun]; rfl, by rw [hrun]; rfl, by rw [hrun]; rfl⟩

/-- Witness for c7_debounced_commit: three identical debounced calls inside
one window fire once with those arguments, and the resulting page is 1. -/
theorem c7_witness :
    (debRun (([sampleFilterArgs, sampleFilterArgs, sampleFilterArgs].map DebEvent.call)
        ++ [DebEvent.tick])).fired = [sampleFilterArgs]
  ∧ (applyCommits sampleEditedState
      (debRun (([sampleFilterArgs, sampleFilterArgs, sampleFilterArgs].map DebEvent.call)
        ++ [DebEvent.tick])).fired).page = 1 := by
  have h := c7_debounced_commit [sampleFilterArgs, sampleFilterArgs, sampleFilterArgs]
    (by decide) sampleEditedState
  exact ⟨h.1.trans (by decide), h.2.2.2⟩
